import Mathlib

/-!
Verification development for the search-gateway backend (search service and
elasticsearch adapter). The TypeScript sources under
`src/backend/src/modules/search/search.service.ts` and
`src/backend/src/modules/elasticsearch/elasticsearch.service.ts` are embedded
shallowly: strings are `String`/`List Char`, JS numbers are `ℚ` (with an
explicit `JsNum` extension by infinities and NaN where division by zero
matters), fallible calls are `Except`/`Option` values, and JS truthiness is
made explicit at each use site.
-/

namespace Imago

/-- The apostrophe character, written via its code point to keep string
literals free of quoting issues. -/
def apos : Char := Char.ofNat 39

/-- The Unicode replacement character U+FFFD, which appears in the source data
as the mojibake marker and is written as a literal in the TypeScript regexes. -/
def fffd : Char := Char.ofNat 0xFFFD

/-- The white-diamond character U+2B26 replaced by an ellipsis in `cleanText`. -/
def wdiamond : Char := Char.ofNat 0x2B26

/-- Membership in the JavaScript regex `\s` class (also the set trimmed by
`String.prototype.trim`). -/
def isJsWs (c : Char) : Bool :=
  c = ' ' || c = '\t' || c = '\n' || c = '\r' ||
  c = Char.ofNat 0x0B || c = Char.ofNat 0x0C || c = Char.ofNat 0xA0 ||
  c = Char.ofNat 0x1680 || (0x2000 ≤ c.toNat && c.toNat ≤ 0x200A) ||
  c = Char.ofNat 0x2028 || c = Char.ofNat 0x2029 || c = Char.ofNat 0x202F ||
  c = Char.ofNat 0x205F || c = Char.ofNat 0x3000 || c = Char.ofNat 0xFEFF

/-- JavaScript `String.prototype.trim` on a character list. -/
def jsTrim (l : List Char) : List Char :=
  ((l.dropWhile isJsWs).reverse.dropWhile isJsWs).reverse

/-- JavaScript `String.prototype.trim`. -/
def jsTrimStr (s : String) : String := String.mk (jsTrim s.data)

/-- `text.replace(/X/g, rep)` for a single literal character `X`: every
occurrence of `target` is replaced by the string `rep`. -/
def replaceChar (target : Char) (rep : List Char) : List Char → List Char
  | [] => []
  | c :: rest => (if c = target then rep else [c]) ++ replaceChar target rep rest

/-- `text.replace(/XY/g, rep)` for a two-character literal pattern `XY`:
left-to-right, non-overlapping global replacement. -/
def replace2 (x y : Char) (rep : List Char) : List Char → List Char
  | [] => []
  | [c] => [c]
  | c :: d :: rest =>
    if c = x ∧ d = y then rep ++ replace2 x y rep rest
    else c :: replace2 x y rep (d :: rest)

/-- `text.replace(/\s+/g, ' ')`: collapse every maximal whitespace run to a
single space. The `prevWs` flag records whether the current position is inside
a whitespace run already emitted as one space. -/
def collapseWsAux : Bool → List Char → List Char
  | _, [] => []
  | prevWs, c :: rest =>
    if isJsWs c then
      if prevWs then collapseWsAux true rest
      else ' ' :: collapseWsAux true rest
    else c :: collapseWsAux false rest

/-- `text.replace(/\s+/g, ' ')` on a character list. -/
def collapseWs (l : List Char) : List Char := collapseWsAux false l

/-- A character matchable by `.` in a JavaScript regex without the `s` flag
(everything except line terminators). -/
def isDotChar (c : Char) : Bool :=
  !(c = '\n' || c = '\r' || c = Char.ofNat 0x2028 || c = Char.ofNat 0x2029)

/-- If one of the agency alternatives `(ABACAPRESS|IMAGO|Getty Images)` of the
copyright regex matches (case-insensitively, `i` flag) at the head of `l`,
return its length; the alternatives are tried in the regex order. -/
def agencyAt (l : List Char) : Option Nat :=
  if (l.take 10).map Char.toLower = "abacapress".data then some 10
  else if (l.take 5).map Char.toLower = "imago".data then some 5
  else if (l.take 12).map Char.toLower = "getty images".data then some 12
  else none

/-- Lazy search for `.*?(ABACAPRESS|IMAGO|Getty Images)` starting right after a
mojibake marker: returns the total number of characters consumed (shortest
middle, then the agency name), or `none` when the regex cannot match here. -/
def findAgencyEnd : List Char → Option Nat
  | [] => none
  | c :: rest =>
    match agencyAt (c :: rest) with
    | some k => some k
    | none => if isDotChar c then (findAgencyEnd rest).map (· + 1) else none

/-- Global replacement `text.replace(/�.*?(ABACAPRESS|IMAGO|Getty Images)/gi, '')`:
scan left to right; at a mojibake marker try the lazy match and, on success,
drop the whole match and continue after it. The fuel argument (initially the
list length) only makes the recursion structural; at least one character is
consumed per step, so it never runs out. -/
def stripCopyrightAux : Nat → List Char → List Char
  | _, [] => []
  | 0, l => l
  | fuel + 1, c :: rest =>
    if c = fffd then
      match findAgencyEnd rest with
      | some k => stripCopyrightAux fuel (rest.drop k)
      | none => c :: stripCopyrightAux fuel rest
    else c :: stripCopyrightAux fuel rest

/-- The copyright-boilerplate removal step of `cleanText`. -/
def stripCopyright (l : List Char) : List Char := stripCopyrightAux l.length l

/-- `cleanText` from `search.service.ts` (lines 462-479): the replacement chain
is applied in source order — `?`→apostrophe, `�"`→apostrophe,
`�S`→`"`, `�`→`"`, `⬦`→`...`, copyright-notice removal, whitespace
collapse, trim. Empty input short-circuits to the empty string (`if (!text)`). -/
def cleanText (text : String) : String :=
  if text = "" then ""
  else
    String.mk (jsTrim (collapseWs (stripCopyright
      (replaceChar wdiamond ['.', '.', '.']
        (replaceChar fffd ['"']
          (replace2 fffd 'S' ['"']
            (replace2 fffd '"' [apos]
              (replaceChar '?' [apos] text.data))))))))

/-- The fallback branch of `generateTitle`: split the cleaned text on single
spaces (`split(' ')`), keep words longer than two characters, take the first
six, join with single spaces, capitalize the first character, and fall back to
the literal when the result is empty. -/
def titleFromText (cleanedText : String) : String :=
  let words := cleanedText.data.splitOnP (fun c => c = ' ')
  let titleWords := (words.filter (fun w => 2 < w.length)).take 6
  let joined := List.intercalate [' '] titleWords
  match joined with
  | [] => "Untitled Image"
  | c :: t => String.mk (Char.toUpper c :: t)

/-- `generateTitle` from `search.service.ts` (lines 484-504). The JS guard
`existingTitle && existingTitle.trim()` is truthiness of the string and of its
trim. -/
def generateTitle (existingTitle : Option String) (cleanedText : String) : String :=
  match existingTitle with
  | some t => if t ≠ "" ∧ jsTrimStr t ≠ "" then cleanText t else titleFromText cleanedText
  | none => titleFromText cleanedText

/-- `generateDescription` from `search.service.ts` (lines 509-524). -/
def generateDescription (existingDescription : Option String) (cleanedText : String) : String :=
  match existingDescription with
  | some d =>
    if d ≠ "" ∧ jsTrimStr d ≠ "" then cleanText d
    else
      let description :=
        if 200 < cleanedText.data.length then String.mk (cleanedText.data.take 200) ++ "..."
        else cleanedText
      if description = "" then "No description available" else description
  | none =>
    let description :=
      if 200 < cleanedText.data.length then String.mk (cleanedText.data.take 200) ++ "..."
      else cleanedText
    if description = "" then "No description available" else description

/-- ASCII word characters, the `\w` class used implicitly by the `\b` anchors
in the stop-word regexes. -/
def isWordChar (c : Char) : Bool :=
  (65 ≤ c.toNat && c.toNat ≤ 90) || (97 ≤ c.toNat && c.toNat ≤ 122) ||
  (48 ≤ c.toNat && c.toNat ≤ 57) || c = '_'

/-- Maximal runs of word characters. A regex `/\b(w1|...|wn)\b/gi` whose
alternatives consist only of letters matches exactly the maximal word-character
runs equal (case-insensitively) to one of the alternatives: both `\b` anchors
force the match to start and end at word-run boundaries, and a match made of
word characters starting and ending at boundaries is a whole run. -/
def wordTokens (l : List Char) : List (List Char) :=
  (l.splitOnP (fun c => !isWordChar c)).filter (fun t => t ≠ [])

/-- The fixed German stop-word list of `detectLanguage` (regex alternatives in
source order). -/
def germanStopwords : List String :=
  ["und", "der", "die", "das", "ein", "eine", "mit", "von", "zu", "auf",
   "ist", "sind", "haben", "werden", "oder", "aber"]

/-- The fixed English stop-word list of `detectLanguage`. -/
def englishStopwords : List String :=
  ["and", "the", "of", "a", "an", "with", "from", "to", "on", "is",
   "are", "have", "will", "or", "but"]

/-- `(text.match(regex) || []).length` for a case-insensitive whole-word
stop-word regex: the number of word tokens of `text` whose lowercase form is in
the list. -/
def countStopwordMatches (stopwords : List String) (text : String) : Nat :=
  ((wordTokens text.data).filter
    (fun t => stopwords.contains (String.mk (t.map Char.toLower)))).length

/-- The threshold comparison chain of `detectLanguage` on the two match counts.
The JS comparison `germanMatches > englishMatches * 1.5` is exact for integer
counts and equals `3 * englishMatches < 2 * germanMatches`; the rational form
with the literal `1.5` is proved equivalent in the claim theorem. -/
def classifyLanguage (germanMatches englishMatches : Nat) : String :=
  if 3 * englishMatches < 2 * germanMatches then "de"
  else if 3 * germanMatches < 2 * englishMatches then "en"
  else "mixed"

/-- `detectLanguage` from `search.service.ts` (lines 544-563). -/
def detectLanguage (text : String) : String :=
  if text = "" then "unknown"
  else
    classifyLanguage (countStopwordMatches germanStopwords text)
      (countStopwordMatches englishStopwords text)

/-- `sanitizeSearchText` from `search.service.ts` (lines 568-575): strip
`<>{}[]()` and trim. -/
def sanitizeSearchText (text : String) : String :=
  String.mk (jsTrim (text.data.filter
    (fun c => !(c = '<' || c = '>' || c = Char.ofNat 0x7b || c = Char.ofNat 0x7d ||
      c = '[' || c = ']' || c = '(' || c = ')'))))

/-- `haystack.includes(needle)` on character lists. -/
def listIncl (needle : List Char) : List Char → Bool
  | [] => needle.isEmpty
  | c :: t => ((c :: t).take needle.length = needle : Bool) || listIncl needle t

/-- JavaScript `String.prototype.includes`. -/
def strIncludes (haystack needle : String) : Bool := listIncl needle.data haystack.data

/-- JavaScript `String.prototype.toLowerCase` (ASCII range, which covers every
string compared in this service). -/
def toLowerStr (s : String) : String := String.mk (s.data.map Char.toLower)

/-- The fixed photography-term vocabulary of `getSuggestions`. -/
def photoTerms : List String :=
  ["landscape", "portrait", "nature", "wildlife", "architecture",
   "street photography", "macro", "sunset", "sunrise", "mountain",
   "ocean", "forest", "city", "people", "sport", "event"]

/-- The vocabulary terms related to the query text by substring containment in
either direction (`term.includes(queryLower) || queryLower.includes(term)`). -/
def matchingPhotoTerms (q : String) : List String :=
  let queryLower := toLowerStr q
  photoTerms.filter (fun term => strIncludes term queryLower || strIncludes queryLower term)

/-- `getSuggestions` from `search.service.ts` (lines 744-794), with the
`Promise` wrapper dropped: the body is synchronous. `if (query.q)` is string
truthiness. -/
def getSuggestions (q : Option String) (totalResults : Nat) : List String :=
  if 10 < totalResults then []
  else
    let suggestions : List String :=
      match q with
      | some s => if s ≠ "" then (matchingPhotoTerms s).take 3 else []
      | none => []
    if suggestions = [] then photoTerms.take 5 else suggestions

/-- A JavaScript IEEE-754 number as used by the aspect-ratio computation:
either a finite value (kept exact as a rational — the finite case is never
produced by a division by zero, the only case the claims here depend on), or
one of the infinities, or NaN. -/
inductive JsNum where
  | fin (q : ℚ)
  | inf
  | negInf
  | nan
deriving DecidableEq

/-- IEEE-754 division of two finite numbers (`breite / hoehe`): a zero divisor
yields a signed infinity, or NaN for `0 / 0`. -/
def jsDivQ (a b : ℚ) : JsNum :=
  if b ≠ 0 then .fin (a / b)
  else if 0 < a then .inf
  else if a < 0 then .negInf
  else .nan

/-- `x - c` for a JS number `x` and finite constant `c`. -/
def jsSubC (x : JsNum) (c : ℚ) : JsNum :=
  match x with
  | .fin q => .fin (q - c)
  | .inf => .inf
  | .negInf => .negInf
  | .nan => .nan

/-- `Math.abs` on a JS number. -/
def jsAbs (x : JsNum) : JsNum :=
  match x with
  | .fin q => .fin |q|
  | .inf => .inf
  | .negInf => .inf
  | .nan => .nan

/-- `x < c` for a JS number and finite constant: false whenever `x` is NaN. -/
def jsLtC (x : JsNum) (c : ℚ) : Bool :=
  match x with
  | .fin q => q < c
  | .inf => false
  | .negInf => true
  | .nan => false

/-- `x > c` for a JS number and finite constant: false whenever `x` is NaN. -/
def jsGtC (x : JsNum) (c : ℚ) : Bool :=
  match x with
  | .fin q => c < q
  | .inf => true
  | .negInf => false
  | .nan => false

/-- `determineOrientation` from `search.service.ts` (lines 529-539):
`Math.abs(aspectRatio - 1) < 0.1` → square, else `aspectRatio > 1` → landscape,
else portrait. -/
def determineOrientation (aspectRatio : JsNum) : String :=
  if jsLtC (jsAbs (jsSubC aspectRatio 1)) (1 / 10) then "square"
  else if jsGtC aspectRatio 1 then "landscape"
  else "portrait"

/-- `padStart(10, '0')` as used by `buildImageUrl`. -/
def padStart (s : String) (n : Nat) (c : Char) : String :=
  if n ≤ s.data.length then s
  else String.mk (List.replicate (n - s.data.length) c) ++ s

/-- `buildImageUrl` from `search.service.ts` (lines 452-457). -/
def buildImageUrl (baseImageUrl db bildnummer : String) : String :=
  baseImageUrl ++ "/bild/" ++ db ++ "/" ++ padStart bildnummer 10 '0' ++ "/s.jpg"

/-- The `_source` shape of a media hit (interface `MediaSourceData`). -/
structure MediaSourceData where
  bildnummer : String
  datum : String
  suchtext : String
  fotografen : String
  hoehe : ℚ
  breite : ℚ
  db : String
  title : Option String := none
  description : Option String := none

/-- An elasticsearch hit carrying `MediaSourceData` (interface `MediaHit`);
highlights are per-field fragment lists. -/
structure MediaHit where
  id : String
  score : ℚ
  source : MediaSourceData
  highlight : Option (List (String × List String)) := none

/-- The caller-facing result item (`MediaItemDto`). -/
structure MediaItemDto where
  id : String
  bildnummer : String
  title : String
  description : String
  searchText : String
  photographer : String
  date : String
  width : ℚ
  height : ℚ
  database : String
  imageUrl : String
  thumbnailUrl : String
  score : ℚ
  aspectRatio : JsNum
  orientation : String
  language : String
  cleanedText : String
  highlights : Option (List (String × List String)) := none

/-- `transformMediaItem` from `search.service.ts` (lines 395-447). The aspect
ratio `source.breite / source.hoehe` is computed with IEEE semantics, so a zero
height yields an infinity or NaN rather than an exception. -/
def transformMediaItem (baseImageUrl : String) (hit : MediaHit)
    (includeHighlights : Bool) : MediaItemDto :=
  let source := hit.source
  let cleanedText := cleanText source.suchtext
  let title := generateTitle source.title cleanedText
  let description := generateDescription source.description cleanedText
  let imageUrl := buildImageUrl baseImageUrl source.db source.bildnummer
  let aspectRatio := jsDivQ source.breite source.hoehe
  let orientation := determineOrientation aspectRatio
  let language := detectLanguage cleanedText
  { id := hit.id
    bildnummer := source.bildnummer
    title := title
    description := description
    searchText := source.suchtext
    photographer := source.fotografen
    date := source.datum
    width := source.breite
    height := source.hoehe
    database := source.db
    imageUrl := imageUrl
    thumbnailUrl := imageUrl
    score := hit.score
    aspectRatio := aspectRatio
    orientation := orientation
    language := language
    cleanedText := cleanedText
    highlights := if includeHighlights then hit.highlight else none }

/-- `detectWarnings` from `search.service.ts` (lines 799-841). `!item.title` is
string truthiness (only the empty string is falsy). -/
def detectWarnings (results : List MediaItemDto) : List String :=
  if results.length = 0 then []
  else
    let missingTitles :=
      (results.filter (fun item => item.title = "Untitled Image" || item.title = "")).length
    let encodingIssues :=
      (results.filter (fun item =>
        strIncludes item.searchText "?" || item.cleanedText != item.searchText)).length
    let missingDescriptions :=
      (results.filter (fun item => item.description = "No description available")).length
    (if 0 < missingTitles then
      [toString missingTitles ++ " of " ++ toString results.length ++
        " results have generated titles due to missing original titles"]
     else []) ++
    (if 0 < encodingIssues then
      [toString encodingIssues ++ " of " ++ toString results.length ++
        " results had text encoding issues that were automatically corrected"]
     else []) ++
    (if 0 < missingDescriptions then
      [toString missingDescriptions ++ " of " ++ toString results.length ++
        " results have generated descriptions due to missing original descriptions"]
     else [])

/-- The `warnings` field of the response assembled by `search` (line 115):
`warnings.length > 0 ? warnings : undefined`. -/
def searchWarningsField (results : List MediaItemDto) : Option (List String) :=
  let warnings := detectWarnings results
  if 0 < warnings.length then some warnings else none

/-- The validated search request (`SearchQueryDto`). `fromOffset` models the
`from` field (a Lean keyword). Absent optional fields are `none`. -/
structure SearchQueryDto where
  q : Option String := none
  photographer : Option String := none
  dateFrom : Option String := none
  dateTo : Option String := none
  minWidth : Option Nat := none
  maxWidth : Option Nat := none
  minHeight : Option Nat := none
  maxHeight : Option Nat := none
  db : Option String := none
  imageIds : Option (List String) := none
  sortBy : Option String := none
  sortOrder : Option String := none
  size : Option Nat := none
  fromOffset : Option Nat := none
  highlight : Bool := false

/-- JS truthiness of an optional string: `undefined` and the empty string are
falsy. -/
def jsTruthyS : Option String → Bool
  | some s => s ≠ ""
  | none => false

/-- JS truthiness of an optional number: `undefined` and `0` are falsy. -/
def jsTruthyN : Option Nat → Bool
  | some n => n ≠ 0
  | none => false

/-- The optional value kept only when truthy, as built by the
`if (x) range.bound = x` pattern. -/
def keptIfTruthyS (o : Option String) : Option String := if jsTruthyS o then o else none

/-- The optional numeric value kept only when truthy. -/
def keptIfTruthyN (o : Option Nat) : Option Nat := if jsTruthyN o then o else none

/-- The elasticsearch query tree built by the service (shape of
`ElasticsearchQuery` as actually constructed). -/
inductive EsQuery where
  | matchAll
  | multiMatch (query : String) (fields : List String) (matchType : String)
      (fuzziness : String) (operatorKind : String) (minimumShouldMatch : String)
  | termQ (field value : String)
  | rangeStr (field : String) (gte lte : Option String)
  | rangeNum (field : String) (gte lte : Option Nat)
  | termsQ (field : String) (values : List String)
  | boolQ (must filter : List EsQuery)

/-- `buildElasticsearchQuery` from `search.service.ts` (lines 174-297): the
`must` list holds the text clause or `match_all`, the `filter` list holds the
optional filter clauses in source order. -/
def buildElasticsearchQuery (query : SearchQueryDto) : EsQuery :=
  let must : List EsQuery :=
    match query.q with
    | some s =>
      if jsTrimStr s ≠ "" then
        [.multiMatch (sanitizeSearchText (jsTrimStr s))
          ["suchtext^3", "title^2", "description^1.5", "fotografen^1"]
          "best_fields" "AUTO" "and" "75%"]
      else [.matchAll]
    | none => [.matchAll]
  let photographerF : List EsQuery :=
    if jsTruthyS query.photographer then [.termQ "fotografen.keyword" (query.photographer.getD "")]
    else []
  let dateF : List EsQuery :=
    if jsTruthyS query.dateFrom || jsTruthyS query.dateTo then
      [.rangeStr "datum" (keptIfTruthyS query.dateFrom) (keptIfTruthyS query.dateTo)]
    else []
  let widthF : List EsQuery :=
    if jsTruthyN query.minWidth || jsTruthyN query.maxWidth then
      [.rangeNum "breite" (keptIfTruthyN query.minWidth) (keptIfTruthyN query.maxWidth)]
    else []
  let heightF : List EsQuery :=
    if jsTruthyN query.minHeight || jsTruthyN query.maxHeight then
      [.rangeNum "hoehe" (keptIfTruthyN query.minHeight) (keptIfTruthyN query.maxHeight)]
    else []
  let dbF : List EsQuery :=
    if jsTruthyS query.db then [.termQ "db" (query.db.getD "")] else []
  let idsF : List EsQuery :=
    match query.imageIds with
    | some ids => if 0 < ids.length then [.termsQ "bildnummer" ids] else []
    | none => []
  .boolQ must (photographerF ++ dateF ++ widthF ++ heightF ++ dbF ++ idsF)

/-- The single primary sort entry pushed by the `switch` in `buildSort`
(field, order). -/
def primarySort (sortBy sortOrder : String) : List (String × String) :=
  let order := if sortOrder = "asc" || sortOrder = "desc" then sortOrder else "desc"
  if sortBy = "_score" then [("_score", order)]
  else if sortBy = "datum" then [("datum", order)]
  else if sortBy = "bildnummer" then [("bildnummer", order)]
  else if sortBy = "breite" then [("breite", order)]
  else if sortBy = "hoehe" then [("hoehe", order)]
  else [("_score", "desc")]

/-- `buildSort` from `search.service.ts` (lines 302-343): the switch-selected
primary sort, then the secondary `bildnummer` ascending tie-break pushed
whenever `sortBy !== 'bildnummer'`. -/
def buildSort (sortBy sortOrder : String) : List (String × String) :=
  primarySort sortBy sortOrder ++
    (if sortBy ≠ "bildnummer" then [("bildnummer", "asc")] else [])

/-- `(query.x || default)` for the numeric pagination fields. -/
def jsOrNat : Option Nat → Nat → Nat
  | some v, d => if v = 0 then d else v
  | none, d => d

/-- The search response metadata (`SearchMetadataDto`). `page` and
`totalPages` are integers produced by `Math.floor`/`Math.ceil`. -/
structure SearchMetadataDto where
  total : Nat
  count : Nat
  fromOffset : Nat
  size : Nat
  took : Nat
  hasMore : Bool
  page : ℤ
  totalPages : ℤ
deriving DecidableEq

/-- `buildMetadata` from `search.service.ts` (lines 580-607): `from` and `size`
default through `||` to 0 and 20, `page = Math.floor(from / size) + 1`,
`totalPages = Math.ceil(total / size)`, `hasMore = from + count < total`. The
float divisions are modelled exactly over ℚ. -/
def buildMetadata (total hitsCount : Nat) (queryFrom querySize : Option Nat)
    (took : Nat) : SearchMetadataDto :=
  let f := jsOrNat queryFrom 0
  let s := jsOrNat querySize 20
  { total := total
    count := hitsCount
    fromOffset := f
    size := s
    took := took
    hasMore := decide (f + hitsCount < total)
    page := ⌊(f : ℚ) / (s : ℚ)⌋ + 1
    totalPages := ⌈(total : ℚ) / (s : ℚ)⌉ }

/-- One `(key, doc_count)` bucket of a terms aggregation. -/
structure FacetBucket where
  key : String
  docCount : Nat
deriving DecidableEq

/-- A stats aggregation result (`min`/`max`/`avg`, each possibly absent). -/
structure AggStats where
  min : Option ℚ := none
  max : Option ℚ := none
  avg : Option ℚ := none

/-- The aggregation response consumed by `buildFacets`/`buildStats`: each
aggregation may be missing (the defensive `?.` chains in the source). The
`date_range` field holds the histogram buckets by `key_as_string`. -/
structure AggregationsResponse where
  photographers : Option (List FacetBucket) := none
  databases : Option (List FacetBucket) := none
  dimensions : Option AggStats := none
  heights : Option AggStats := none
  date_range : Option (List String) := none

/-- One rendered facet (`SearchFacetDto`): a name and `(value, count)` pairs. -/
structure SearchFacetDto where
  name : String
  values : List (String × Nat)
deriving DecidableEq

/-- `Math.round`, which rounds half toward positive infinity. -/
def jsRound (q : ℚ) : ℤ := ⌊q + 1 / 2⌋

/-- A min/max/avg range inside `SearchStatsDto` (`avg` is `Math.round`ed). -/
structure DimensionRange where
  min : ℚ
  max : ℚ
  avg : ℤ

/-- The stats object (`SearchStatsDto`): optional width/height ranges and an
optional earliest/latest date range. -/
structure SearchStatsDto where
  dimensions : Option (DimensionRange × DimensionRange) := none
  dateRange : Option (String × String) := none

/-- `buildFacets` from `search.service.ts` (lines 663-695): a photographers
facet and a databases facet, each only when its buckets are present. -/
def buildFacets (aggregations : AggregationsResponse) : List SearchFacetDto :=
  (match aggregations.photographers with
   | some buckets =>
     [{ name := "photographers", values := buckets.map (fun b => (b.key, b.docCount)) }]
   | none => []) ++
  (match aggregations.databases with
   | some buckets =>
     [{ name := "databases", values := buckets.map (fun b => (b.key, b.docCount)) }]
   | none => [])

/-- `buildStats` from `search.service.ts` (lines 700-739): dimension stats only
when both the width and height aggregations are present (each missing bound
defaulting through `|| 0`), and the date range from the first and last
histogram buckets when non-empty. -/
def buildStats (aggregations : AggregationsResponse) : SearchStatsDto :=
  let dimensions :=
    match aggregations.dimensions, aggregations.heights with
    | some d, some h =>
      some ({ min := d.min.getD 0, max := d.max.getD 0, avg := jsRound (d.avg.getD 0) },
            { min := h.min.getD 0, max := h.max.getD 0, avg := jsRound (h.avg.getD 0) })
    | _, _ => none
  let dateRange :=
    match aggregations.date_range with
    | some (b :: bs) => some (b, (b :: bs).getLastD b)
    | _ => none
  { dimensions := dimensions, dateRange := dateRange }

/-- The error shapes thrown by the elasticsearch client, as discriminated by
`handleElasticsearchError`: `ConnectionError`, `ResponseError` (with its HTTP
status code and the engine-reported error type extracted from the response
body when present), `RequestAbortedError`, and anything else. -/
inductive EsErrorShape where
  | connectionError (message : String)
  | responseError (statusCode : Nat) (bodyErrorType : Option String) (message : String)
  | requestAborted (message : String)
  | otherError (message : String)
deriving DecidableEq

/-- The NestJS exceptions thrown by the adapter, each carrying its message. -/
inductive HttpException where
  | serviceUnavailable (message : String)
  | internalServerError (message : String)
  | requestTimeout (message : String)
deriving DecidableEq

/-- `handleElasticsearchError` from `elasticsearch.service.ts` (lines 432-481).
For a 400 response the message embeds the engine-reported error type, falling
back to the error message (`error.meta?.body ... ? body.error?.type :
error.message`). -/
def handleElasticsearchError : EsErrorShape → HttpException
  | .connectionError _ =>
    .serviceUnavailable "Elasticsearch service is temporarily unavailable"
  | .responseError statusCode bodyErrorType message =>
    match statusCode with
    | 400 => .internalServerError
        ("Invalid Elasticsearch query: " ++ bodyErrorType.getD message)
    | 404 => .internalServerError "Elasticsearch index not found"
    | 429 => .serviceUnavailable
        "Elasticsearch service is overloaded, please try again later"
    | 503 => .serviceUnavailable "Elasticsearch service is temporarily unavailable"
    | _ => .internalServerError ("Elasticsearch operation failed: " ++ message)
  | .requestAborted _ => .requestTimeout "Elasticsearch request timed out"
  | .otherError _ =>
    .internalServerError "An unexpected error occurred while accessing search data"

/-- `get` from `elasticsearch.service.ts` (lines 207-229), abstracted over the
outcome of the underlying client call: a `ResponseError` with status 404 is
returned as `null` (`none`), any other failure goes through
`handleElasticsearchError`, and a successful fetch is returned as-is. -/
def esGet {α : Type} (fetchResult : Except EsErrorShape α) : Except HttpException (Option α) :=
  match fetchResult with
  | .ok r => .ok (some r)
  | .error e =>
    match e with
    | .responseError 404 _ _ => .ok none
    | _ => .error (handleElasticsearchError e)

/-- `getFacets` from `search.service.ts` (lines 612-658), abstracted over the
outcome of the `aggregate` call: a thrown engine error is caught (and logged)
yielding `{}`, and an `undefined` aggregations payload also defaults to `{}`
through `|| {}`. -/
def getFacets (aggregateResult : Except EsErrorShape (Option AggregationsResponse)) :
    AggregationsResponse :=
  match aggregateResult with
  | .ok r => r.getD {}
  | .error _ => {}

/-- The facet/stats portion of the response assembled by `search` (lines
96-116): facets and stats are rendered from whatever `getFacets` produced, and
the response is composed with `success: true` regardless. -/
structure SearchFacetsStatsFragment where
  facets : List SearchFacetDto
  stats : SearchStatsDto
  success : Bool

/-- Composition of the facet-dependent response fields in `search`. -/
def composeFacetsStats (aggregateResult : Except EsErrorShape (Option AggregationsResponse)) :
    SearchFacetsStatsFragment :=
  { facets := buildFacets (getFacets aggregateResult)
    stats := buildStats (getFacets aggregateResult)
    success := true }

/-- The fallback title computed as the specification words it: the first six
whitespace-separated tokens of the cleaned text longer than two characters,
joined with single spaces, first letter capitalized, with the literal fallback
when empty. Stated with the whitespace class, for comparison with the
source-side `titleFromText`, which splits on single spaces only. -/
def specGeneratedTitle (cleanedText : String) : String :=
  let tokens := (cleanedText.data.splitOnP (fun c => isJsWs c)).filter (fun w => 2 < w.length)
  let joined := List.intercalate [' '] (tokens.take 6)
  match joined with
  | [] => "Untitled Image"
  | c :: t => String.mk (Char.toUpper c :: t)

/-- A result item with an original title and description and clean text, used
as a concrete warning-free input. -/
def sampleCleanItem : MediaItemDto :=
  { id := "1"
    bildnummer := "123456"
    title := "Dog show"
    description := "A dog at a show"
    searchText := "dog show"
    photographer := "X"
    date := "2004-03-09"
    width := 100
    height := 50
    database := "st"
    imageUrl := "u"
    thumbnailUrl := "u"
    score := 1
    aspectRatio := .fin 2
    orientation := "landscape"
    language := "en"
    cleanedText := "dog show" }

/-- A concrete hit whose source records a zero height and a positive width. -/
def sampleZeroHeightHit : MediaHit :=
  { id := "1"
    score := 1
    source :=
      { bildnummer := "123456"
        datum := "2004-03-09"
        suchtext := ""
        fotografen := "X"
        hoehe := 0
        breite := 4
        db := "st" } }

end Imago

example : Imago.buildSort "datum" "asc" = [("datum", "asc"), ("bildnummer", "asc")] := by decide
example : Imago.buildSort "bildnummer" "desc" = [("bildnummer", "desc")] := by decide
example : Imago.buildSort "weird" "up" = [("_score", "desc"), ("bildnummer", "asc")] := by decide
example : Imago.buildElasticsearchQuery { q := some "  " } = .boolQ [.matchAll] [] := by rfl
example : (Imago.buildMetadata 1543 1 (some 0) (some 20) 45).totalPages = 78 := by
  show ⌈(1543 : ℚ) / (20 : ℚ)⌉ = 78
  rw [show ((1543 : ℚ) / 20) = 77 + 3 / 20 by norm_num]
  rw [Int.ceil_eq_iff]
  norm_num

example : Imago.detectLanguage "" = "unknown" := by decide
example : Imago.detectLanguage "und der die das oder" = "de" := by decide
example : Imago.detectLanguage "the cat and the dog" = "en" := by decide
example : Imago.detectLanguage "xyz" = "mixed" := by decide
example : Imago.getSuggestions (some "sun") 10 = ["sunset", "sunrise"] := by decide
example : Imago.getSuggestions (some "sun") 11 = [] := by decide
example : Imago.getSuggestions none 0 =
    ["landscape", "portrait", "nature", "wildlife", "architecture"] := by decide
example : Imago.determineOrientation (Imago.jsDivQ 4 0) = "landscape" := by decide
example : Imago.determineOrientation (Imago.jsDivQ 0 0) = "portrait" := by decide
example : Imago.buildImageUrl "https://x.de" "st" "123456" = "https://x.de/bild/st/0000123456/s.jpg" := by decide

example : Imago.cleanText "a  b" = "a b" := by decide
example : Imago.cleanText "" = "" := by decide
example : Imago.cleanText "don?t stop" = String.mk ['d', 'o', 'n', Imago.apos, 't', ' ', 's', 't', 'o', 'p'] := by decide
example : Imago.cleanText "Fans � IMAGO sports" = "Fans \" IMAGO sports" := by decide
example : Imago.generateTitle none "one two three four five six seven eight nine ten" = "One two three four five six" := by decide
example : Imago.generateTitle none "" = "Untitled Image" := by decide

open Imago

/-- C1: the Engine Client Adapter error classifier maps every backing-engine
failure per the fixed taxonomy — connection errors to the ServiceUnavailable
exception; a malformed-query 400 response to the invalid-query failure whose
message embeds the engine-reported reason; HTTP 429 overload to
ServiceUnavailable with a retry-later message; an aborted request to the
Timeout exception; any unrecognized error shape to the generic internal
failure; and a 404 on get-by-id is returned as an absent result (`none`), not
raised. -/
theorem c1_error_taxonomy :
    (∀ m : String, handleElasticsearchError (.connectionError m) =
      .serviceUnavailable "Elasticsearch service is temporarily unavailable") ∧
    (∀ reason m : String, handleElasticsearchError (.responseError 400 (some reason) m) =
      .internalServerError ("Invalid Elasticsearch query: " ++ reason)) ∧
    (∀ m : String, handleElasticsearchError (.responseError 400 none m) =
      .internalServerError ("Invalid Elasticsearch query: " ++ m)) ∧
    (∀ (bodyErrorType : Option String) (m : String),
      handleElasticsearchError (.responseError 429 bodyErrorType m) =
        .serviceUnavailable "Elasticsearch service is overloaded, please try again later") ∧
    (∀ m : String, handleElasticsearchError (.requestAborted m) =
      .requestTimeout "Elasticsearch request timed out") ∧
    (∀ m : String, handleElasticsearchError (.otherError m) =
      .internalServerError "An unexpected error occurred while accessing search data") ∧
    (∀ (bodyErrorType : Option String) (m : String),
      @esGet Nat (.error (.responseError 404 bodyErrorType m)) = .ok none) ∧
    (∀ v : Nat, @esGet Nat (.ok v) = .ok (some v)) :=
  ⟨fun _ => rfl, fun _ _ => rfl, fun _ => rfl, fun _ _ => rfl, fun _ => rfl,
    fun _ => rfl, fun _ _ => rfl, fun _ => rfl⟩

/-- C7: an aggregation failure does not fail the search — `getFacets` catches
any engine error and yields the empty aggregation result, and the response
fragment is composed with empty facets, empty stats and `success := true`. -/
theorem c7_agg_failure_degrades (e : EsErrorShape) :
    getFacets (.error e) = ({} : AggregationsResponse) ∧
    composeFacetsStats (.error e) =
      { facets := [], stats := { dimensions := none, dateRange := none }, success := true } :=
  ⟨rfl, rfl⟩

/-- C10: transforming a hit whose height is 0 is total, and with IEEE division
semantics a positive width yields aspect ratio `+∞` and orientation
`landscape`, while width 0 yields NaN and orientation `portrait`. -/
theorem c10_zero_height (baseImageUrl : String) (hit : MediaHit) (includeHighlights : Bool)
    (h : hit.source.hoehe = 0) :
    (0 < hit.source.breite →
      (transformMediaItem baseImageUrl hit includeHighlights).aspectRatio = JsNum.inf ∧
      (transformMediaItem baseImageUrl hit includeHighlights).orientation = "landscape") ∧
    (hit.source.breite = 0 →
      (transformMediaItem baseImageUrl hit includeHighlights).aspectRatio = JsNum.nan ∧
      (transformMediaItem baseImageUrl hit includeHighlights).orientation = "portrait") := by
  constructor
  · intro hw
    have ha : jsDivQ hit.source.breite hit.source.hoehe = JsNum.inf := by
      rw [h]; simp [jsDivQ, hw]
    constructor
    · show jsDivQ hit.source.breite hit.source.hoehe = JsNum.inf
      exact ha
    · show determineOrientation (jsDivQ hit.source.breite hit.source.hoehe) = "landscape"
      rw [ha]; rfl
  · intro hw
    have ha : jsDivQ hit.source.breite hit.source.hoehe = JsNum.nan := by
      rw [h, hw]; simp [jsDivQ]
    constructor
    · show jsDivQ hit.source.breite hit.source.hoehe = JsNum.nan
      exact ha
    · show determineOrientation (jsDivQ hit.source.breite hit.source.hoehe) = "portrait"
      rw [ha]; rfl

/-- Witness for C10 at a concrete zero-height, width-4 hit. -/
theorem c10_zero_height_witness :
    (transformMediaItem "https://www.imago-images.de" sampleZeroHeightHit false).aspectRatio =
      JsNum.inf ∧
    (transformMediaItem "https://www.imago-images.de" sampleZeroHeightHit false).orientation =
      "landscape" :=
  (c10_zero_height "https://www.imago-images.de" sampleZeroHeightHit false rfl).1 (by decide)

/-- The `Math.floor` of a nonnegative integer quotient is natural division. -/
theorem floor_natCast_div (a b : Nat) : ⌊(a : ℚ) / (b : ℚ)⌋ = ((a / b : Nat) : ℤ) := by
  rw [Rat.floor_natCast_div_natCast a b]
  exact (Int.ofNat_tdiv a b).symm

/-- The `Math.ceil` of a nonnegative quotient with positive divisor is the
rounded-up natural division `(a + b - 1) / b`. -/
theorem ceil_natCast_div (a b : Nat) (hb : 0 < b) :
    ⌈(a : ℚ) / (b : ℚ)⌉ = (((a + b - 1) / b : Nat) : ℤ) := by
  have hb' : (0 : ℚ) < (b : ℚ) := by exact_mod_cast hb
  set q := (a + b - 1) / b with hq
  obtain ⟨m, hm⟩ : ∃ m, q * b = m := ⟨_, rfl⟩
  have h1 : m ≤ a + b - 1 := hm ▸ Nat.div_mul_le_self _ _
  have h2 : a + b - 1 < m + b := by
    have h := (Nat.div_lt_iff_lt_mul hb).1 (Nat.lt_succ_self q)
    calc a + b - 1 < (q + 1) * b := h
    _ = q * b + b := by ring
    _ = m + b := by rw [hm]
  have h3 : a ≤ m := by omega
  have h4 : m < a + b := by omega
  have hqm : (q : ℚ) * (b : ℚ) = (m : ℚ) := by
    exact_mod_cast congrArg (fun n => ((n : Nat) : ℚ)) hm
  have h3' : (a : ℚ) ≤ (q : ℚ) * b := by rw [hqm]; exact_mod_cast h3
  have h4' : (q : ℚ) * b < (a : ℚ) + b := by rw [hqm]; exact_mod_cast h4
  rw [Int.ceil_eq_iff]
  refine ⟨?_, ?_⟩
  · push_cast
    rw [lt_div_iff₀ hb']
    nlinarith
  · push_cast
    rw [div_le_iff₀ hb']
    nlinarith

/-- The `||`-defaulted size is positive whenever the default is. -/
theorem jsOrNat_pos (o : Option Nat) (d : Nat) (hd : 0 < d) : 0 < jsOrNat o d := by
  cases o with
  | none => exact hd
  | some v =>
    by_cases hv : v = 0
    · simp [jsOrNat, hv, hd]
    · simpa [jsOrNat, hv] using Nat.pos_of_ne_zero hv

/-- C2: for every search call the returned metadata satisfies
`page = floor(from / size) + 1`, `totalPages = ceil(total / size)` (equal to
the rounded-up natural division), and `hasMore = (from + returned count) <
total`, where `from` and `size` are the request values defaulted through `||`
to 0 and 20; the defaulted size is always at least 1, so the boundary cases
`from = 0` and `total = 0` are covered by the universal statement. -/
theorem c2_pagination_metadata (total hitsCount took : Nat) (queryFrom querySize : Option Nat) :
    (buildMetadata total hitsCount queryFrom querySize took).page =
      ((jsOrNat queryFrom 0 / jsOrNat querySize 20 : Nat) : ℤ) + 1 ∧
    (buildMetadata total hitsCount queryFrom querySize took).totalPages =
      (((total + jsOrNat querySize 20 - 1) / jsOrNat querySize 20 : Nat) : ℤ) ∧
    ((buildMetadata total hitsCount queryFrom querySize took).hasMore = true ↔
      jsOrNat queryFrom 0 + hitsCount < total) ∧
    1 ≤ jsOrNat querySize 20 := by
  have hs : 0 < jsOrNat querySize 20 := jsOrNat_pos _ _ (by norm_num)
  refine ⟨?_, ?_, ?_, hs⟩
  · show ⌊(jsOrNat queryFrom 0 : ℚ) / (jsOrNat querySize 20 : ℚ)⌋ + 1 = _
    rw [floor_natCast_div]
  · show ⌈(total : ℚ) / (jsOrNat querySize 20 : ℚ)⌉ = _
    rw [ceil_natCast_div _ _ hs]
  · show decide (jsOrNat queryFrom 0 + hitsCount < total) = true ↔ _
    exact decide_eq_true_iff

/-- C4: building the engine query from a request with absent or
whitespace-only query text and no filters yields a boolean query whose `must`
list is exactly one match-all clause and whose `filter` list is empty; and for
every requested sort field the secondary ascending `bildnummer` sort is
appended exactly when the primary sort field is not `bildnummer`, with
unrecognized sort fields defaulting to relevance descending (so the default
call `buildSort "_score" "desc"` sorts by relevance descending with the
tie-break appended). -/
theorem c4_matchall_and_sort :
    (∀ query : SearchQueryDto,
      (∀ s, query.q = some s → jsTrimStr s = "") →
      query.photographer = none → query.dateFrom = none → query.dateTo = none →
      query.minWidth = none → query.maxWidth = none →
      query.minHeight = none → query.maxHeight = none →
      query.db = none → query.imageIds = none →
      buildElasticsearchQuery query = .boolQ [.matchAll] []) ∧
    (∀ sortBy sortOrder : String,
      buildSort sortBy sortOrder =
        primarySort sortBy sortOrder ++
          (if (primarySort sortBy sortOrder).map Prod.fst = ["bildnummer"] then []
           else [("bildnummer", "asc")]) ∧
      (primarySort sortBy sortOrder).length = 1) ∧
    (∀ sortBy sortOrder : String,
      sortBy ∉ ["_score", "datum", "bildnummer", "breite", "hoehe"] →
      primarySort sortBy sortOrder = [("_score", "desc")]) ∧
    buildSort "_score" "desc" = [("_score", "desc"), ("bildnummer", "asc")] := by
  refine ⟨?_, ?_, ?_, by decide⟩
  · intro query hq h1 h2 h3 h4 h5 h6 h7 h8 h9
    have hmust :
        (match query.q with
          | some s =>
            if jsTrimStr s ≠ "" then
              [EsQuery.multiMatch (sanitizeSearchText (jsTrimStr s))
                ["suchtext^3", "title^2", "description^1.5", "fotografen^1"]
                "best_fields" "AUTO" "and" "75%"]
            else [EsQuery.matchAll]
          | none => [EsQuery.matchAll]) = [EsQuery.matchAll] := by
      cases hqq : query.q with
      | none => rfl
      | some s => simp [hq s hqq]
    simp only [buildElasticsearchQuery, h1, h2, h3, h4, h5, h6, h7, h8, h9, hmust]
    rfl
  · intro sortBy sortOrder
    constructor
    · by_cases hb : sortBy = "bildnummer"
      · subst hb
        simp [buildSort, primarySort]
      · have hne : (primarySort sortBy sortOrder).map Prod.fst ≠ ["bildnummer"] := by
          unfold primarySort
          split_ifs with e1 e2 e3 e4 e5 <;> simp_all
        simp [buildSort, hb, hne]
    · unfold primarySort
      split_ifs <;> rfl
  · intro sortBy sortOrder hmem
    simp only [List.mem_cons, List.mem_singleton, not_or] at hmem
    obtain ⟨e1, e2, e3, e4, e5, -⟩ := hmem
    simp [primarySort, e1, e2, e3, e4, e5]

/-- Witness for C4 at a whitespace-only query with no filters, and at the
`datum` sort field. -/
theorem c4_matchall_and_sort_witness :
    buildElasticsearchQuery { q := some " " } = .boolQ [.matchAll] [] ∧
    buildSort "datum" "asc" =
      primarySort "datum" "asc" ++
        (if (primarySort "datum" "asc").map Prod.fst = ["bildnummer"] then []
         else [("bildnummer", "asc")]) := by
  constructor
  · exact c4_matchall_and_sort.1 { q := some " " }
      (fun s hs => by cases hs; rfl) rfl rfl rfl rfl rfl rfl rfl rfl rfl
  · exact (c4_matchall_and_sort.2.1 "datum" "asc").1

/-- C5: suggestions are computed exactly when the reported total is at most 10
(strict `> 10` threshold): with non-empty query text and at least one
vocabulary term related to it by substring containment in either direction,
the result is the first three such terms (hence at most 3, all from the
vocabulary and all related to the query); otherwise — no matching term, empty
query text, or absent query text — the result is the first five vocabulary
terms. Totals above 10 yield the empty list. -/
theorem c5_suggestions (q : Option String) (totalResults : Nat) :
    (10 < totalResults → getSuggestions q totalResults = []) ∧
    (totalResults ≤ 10 →
      (∀ s, q = some s → s ≠ "" → matchingPhotoTerms s ≠ [] →
        getSuggestions q totalResults = (matchingPhotoTerms s).take 3 ∧
        (getSuggestions q totalResults).length ≤ 3 ∧
        (∀ t ∈ getSuggestions q totalResults, t ∈ photoTerms ∧
          (strIncludes t (toLowerStr s) || strIncludes (toLowerStr s) t) = true)) ∧
      (∀ s, q = some s → s ≠ "" → matchingPhotoTerms s = [] →
        getSuggestions q totalResults = photoTerms.take 5) ∧
      ((q = none ∨ q = some "") → getSuggestions q totalResults = photoTerms.take 5)) := by
  constructor
  · intro hgt
    simp [getSuggestions, hgt]
  · intro hle
    have hnot : ¬ 10 < totalResults := Nat.not_lt.mpr hle
    refine ⟨?_, ?_, ?_⟩
    · intro s hs hne hmatch
      subst hs
      have htake : (matchingPhotoTerms s).take 3 ≠ [] := by
        cases hm : matchingPhotoTerms s with
        | nil => exact absurd hm hmatch
        | cons a l => simp
      have hval : getSuggestions (some s) totalResults = (matchingPhotoTerms s).take 3 := by
        simp [getSuggestions, hnot, hne, htake]
      refine ⟨hval, ?_, ?_⟩
      · rw [hval]; exact List.length_take_le 3 _
      · intro t ht
        rw [hval] at ht
        have htm : t ∈ matchingPhotoTerms s := List.mem_of_mem_take ht
        unfold matchingPhotoTerms at htm
        exact ⟨(List.mem_filter.mp htm).1, (List.mem_filter.mp htm).2⟩
    · intro s hs hne hmatch
      subst hs
      simp [getSuggestions, hnot, hne, hmatch]
    · rintro (hq | hq) <;> subst hq <;> simp [getSuggestions, hnot]

/-- Witness for C5 at the query "sun" and totals 10 and 11: the boundary total
10 triggers suggestion computation while 11 yields the empty list. -/
theorem c5_suggestions_witness :
    getSuggestions (some "sun") 10 = ["sunset", "sunrise"] ∧
    getSuggestions (some "sun") 11 = [] := by
  constructor
  · have h := (((c5_suggestions (some "sun") 10).2 (by norm_num)).1 "sun" rfl
      (by decide) (by decide)).1
    rw [h]; decide
  · exact (c5_suggestions (some "sun") 11).1 (by norm_num)

/-- The float comparison `count > other * 1.5` is exact for integer counts:
over ℚ it is equivalent to `3 * other < 2 * count`. -/
theorem threshold_iff (g e : Nat) : (e : ℚ) * 1.5 < (g : ℚ) ↔ 3 * e < 2 * g := by
  rw [← Nat.cast_lt (α := ℚ)]
  push_cast
  constructor <;> intro h <;> nlinarith

/-- The two threshold conditions of `classifyLanguage` cannot hold at once. -/
theorem classify_exclusive (g e : Nat) : ¬(3 * e < 2 * g ∧ 3 * g < 2 * e) := by
  omega

/-- Branch characterization of `classifyLanguage`. -/
theorem classifyLanguage_spec (g e : Nat) :
    (classifyLanguage g e = "de" ↔ 3 * e < 2 * g) ∧
    (classifyLanguage g e = "en" ↔ 3 * g < 2 * e) ∧
    (classifyLanguage g e = "mixed" ↔ ¬(3 * e < 2 * g) ∧ ¬(3 * g < 2 * e)) := by
  by_cases hA : 3 * e < 2 * g
  · have hB : ¬ 3 * g < 2 * e := by omega
    simp [classifyLanguage, hA, hB]
  · by_cases hB : 3 * g < 2 * e
    · simp [classifyLanguage, hA, hB]
    · simp [classifyLanguage, hA, hB]

/-- C9: `detectLanguage` returns "unknown" exactly on empty input; otherwise,
writing G and E for the German and English whole-word stop-word match counts,
it returns "de" iff G > 1.5·E, "en" iff E > 1.5·G, and "mixed" otherwise
(including G = E = 0); and the count classifier is symmetric — swapping the
two counts swaps the "de" and "en" outcomes and preserves "mixed". -/
theorem c9_language_detection :
    detectLanguage "" = "unknown" ∧
    (∀ text : String, text ≠ "" →
      (detectLanguage text = "de" ↔
        (countStopwordMatches englishStopwords text : ℚ) * 1.5 <
          (countStopwordMatches germanStopwords text : ℚ)) ∧
      (detectLanguage text = "en" ↔
        (countStopwordMatches germanStopwords text : ℚ) * 1.5 <
          (countStopwordMatches englishStopwords text : ℚ)) ∧
      (detectLanguage text = "mixed" ↔
        (¬((countStopwordMatches englishStopwords text : ℚ) * 1.5 <
            (countStopwordMatches germanStopwords text : ℚ)) ∧
         ¬((countStopwordMatches germanStopwords text : ℚ) * 1.5 <
            (countStopwordMatches englishStopwords text : ℚ))))) ∧
    (∀ g e : Nat,
      (classifyLanguage g e = "de" ↔ classifyLanguage e g = "en") ∧
      (classifyLanguage g e = "mixed" ↔ classifyLanguage e g = "mixed")) := by
  refine ⟨rfl, ?_, ?_⟩
  · intro text htext
    have hdl : detectLanguage text =
        classifyLanguage (countStopwordMatches germanStopwords text)
          (countStopwordMatches englishStopwords text) := by
      simp [detectLanguage, htext]
    rw [hdl]
    simp only [threshold_iff]
    have h := classifyLanguage_spec (countStopwordMatches germanStopwords text)
      (countStopwordMatches englishStopwords text)
    exact ⟨h.1, h.2.1, h.2.2⟩
  · intro g e
    have h1 := classifyLanguage_spec g e
    have h2 := classifyLanguage_spec e g
    constructor
    · rw [h1.1, h2.2.1]
    · rw [h1.2.2, h2.2.2]
      omega

/-- Witness for C9 at a German sentence: five German stop-word matches against
zero English ones classify as "de". -/
theorem c9_language_detection_witness :
    detectLanguage "und der die das oder" = "de" := by
  have h := ((c9_language_detection.2.1 "und der die das oder" (by decide)).1).mpr
  rw [show countStopwordMatches germanStopwords "und der die das oder" = 5 from by decide,
    show countStopwordMatches englishStopwords "und der die das oder" = 0 from by decide] at h
  exact h (by norm_num)

/-- `splitOnP` only depends on the predicate values on the list elements. -/
theorem splitOnP_congr (p q : Char → Bool) :
    ∀ l : List Char, (∀ x ∈ l, p x = q x) → l.splitOnP p = l.splitOnP q := by
  intro l
  induction l with
  | nil => intro _; rfl
  | cons c t ih =>
    intro h
    rw [List.splitOnP_cons, List.splitOnP_cons, h c (by simp),
      ih (fun x hx => h x (by simp [hx]))]

/-- C8: `generateTitle` returns `cleanText existingTitle` whenever the
existing title is non-blank; otherwise — in particular whenever the only
whitespace in the cleaned text is the single space produced by `cleanText` —
it returns the first six whitespace-separated tokens longer than two
characters, joined with single spaces and with the first letter capitalized,
falling back to the literal "Untitled Image" when that result is empty, in
particular on empty cleaned text. -/
theorem c8_generate_title :
    (∀ t c : String, jsTrimStr t ≠ "" → generateTitle (some t) c = cleanText t) ∧
    (∀ c : String, (∀ ch ∈ c.data, isJsWs ch = true → ch = ' ') →
      generateTitle none c = specGeneratedTitle c) ∧
    generateTitle none "" = "Untitled Image" := by
  refine ⟨?_, ?_, by decide⟩
  · intro t c h
    have ht : t ≠ "" := by
      intro he
      subst he
      exact h rfl
    simp [generateTitle, ht, h]
  · intro c h
    have hsplit : c.data.splitOnP (fun ch => ch = ' ') = c.data.splitOnP (fun ch => isJsWs ch) := by
      apply splitOnP_congr
      intro x hx
      by_cases hsp : x = ' '
      · subst hsp; decide
      · have : isJsWs x = false := by
          cases hws : isJsWs x with
          | false => rfl
          | true => exact absurd (h x hx hws) hsp
        simp [hsp, this]
    show titleFromText c = specGeneratedTitle c
    unfold titleFromText specGeneratedTitle
    rw [hsplit]

/-- Witness for C8 at the spec example text: the fallback title is exactly the
first six words with the first letter capitalized. -/
theorem c8_generate_title_witness :
    generateTitle none "one two three four five six seven eight nine ten" =
      "One two three four five six" := by
  have h := c8_generate_title.2.1 "one two three four five six seven eight nine ten" (by decide)
  rw [h]; decide

/-- The three-way warning list is empty exactly when all three counts are
zero. -/
theorem warn_append_len_zero (a b c : Nat) (sa sb sc : String) :
    ((if 0 < a then [sa] else []) ++ (if 0 < b then [sb] else []) ++
      (if 0 < c then [sc] else [])).length = 0 ↔ a = 0 ∧ b = 0 ∧ c = 0 := by
  split_ifs <;> simp <;> omega

/-- C6: on every result set whose items carry non-empty titles (as all
transformed items do), `detectWarnings` emits exactly one warning string of
the form "n of total results ..." per non-zero count among (a) items titled
with the literal "Untitled Image" fallback, (b) items whose cleaned text
differs from the raw text or whose raw text contains a literal question mark,
and (c) items described with the literal "No description available" fallback;
and the response warnings field is omitted (`none`), not an empty list,
exactly when all three counts are zero. -/
theorem c6_warnings (results : List MediaItemDto)
    (h : ∀ item ∈ results, item.title ≠ "") :
    detectWarnings results =
      ((if 0 < (results.filter fun item => decide (item.title = "Untitled Image")).length then
          [toString (results.filter fun item => decide (item.title = "Untitled Image")).length ++
            " of " ++ toString results.length ++
            " results have generated titles due to missing original titles"]
        else []) ++
       (if 0 < (results.filter fun item =>
            decide (item.cleanedText ≠ item.searchText) || strIncludes item.searchText "?").length then
          [toString (results.filter fun item =>
              decide (item.cleanedText ≠ item.searchText) || strIncludes item.searchText "?").length ++
            " of " ++ toString results.length ++
            " results had text encoding issues that were automatically corrected"]
        else []) ++
       (if 0 < (results.filter fun item =>
            decide (item.description = "No description available")).length then
          [toString (results.filter fun item =>
              decide (item.description = "No description available")).length ++
            " of " ++ toString results.length ++
            " results have generated descriptions due to missing original descriptions"]
        else [])) ∧
    (searchWarningsField results = none ↔
      ((results.filter fun item => decide (item.title = "Untitled Image")).length = 0 ∧
       (results.filter fun item =>
          decide (item.cleanedText ≠ item.searchText) || strIncludes item.searchText "?").length = 0 ∧
       (results.filter fun item => decide (item.description = "No description available")).length = 0)) := by
  have e1 : results.filter (fun item => item.title = "Untitled Image" || item.title = "") =
      results.filter (fun item => decide (item.title = "Untitled Image")) := by
    apply List.filter_congr
    intro x hx
    have hne := h x hx
    simp [hne]
  have e2 : results.filter (fun item =>
        strIncludes item.searchText "?" || item.cleanedText != item.searchText) =
      results.filter (fun item =>
        decide (item.cleanedText ≠ item.searchText) || strIncludes item.searchText "?") := by
    apply List.filter_congr
    intro x _
    rw [Bool.or_comm]
    congr 1
    rw [Bool.eq_iff_iff]
    simp [bne_iff_ne]
  have hmain : detectWarnings results =
      ((if 0 < (results.filter fun item => decide (item.title = "Untitled Image")).length then
          [toString (results.filter fun item => decide (item.title = "Untitled Image")).length ++
            " of " ++ toString results.length ++
            " results have generated titles due to missing original titles"]
        else []) ++
       (if 0 < (results.filter fun item =>
            decide (item.cleanedText ≠ item.searchText) || strIncludes item.searchText "?").length then
          [toString (results.filter fun item =>
              decide (item.cleanedText ≠ item.searchText) || strIncludes item.searchText "?").length ++
            " of " ++ toString results.length ++
            " results had text encoding issues that were automatically corrected"]
        else []) ++
       (if 0 < (results.filter fun item =>
            decide (item.description = "No description available")).length then
          [toString (results.filter fun item =>
              decide (item.description = "No description available")).length ++
            " of " ++ toString results.length ++
            " results have generated descriptions due to missing original descriptions"]
        else [])) := by
    unfold detectWarnings
    rw [e1, e2]
    cases results with
    | nil => simp
    | cons r rs => rw [if_neg (by simp)]
  refine ⟨hmain, ?_⟩
  have hlen : searchWarningsField results = none ↔ (detectWarnings results).length = 0 := by
    simp only [searchWarningsField]
    split_ifs with hpos
    · simp only [reduceCtorEq, false_iff]
      omega
    · simp only [true_iff]
      omega
  rw [hlen, hmain]
  exact warn_append_len_zero _ _ _ _ _ _

/-- Witness for C6 at a one-item result set with an original title, clean
text, and an original description: no warnings field is emitted. -/
theorem c6_warnings_witness : searchWarningsField [sampleCleanItem] = none := by
  apply (c6_warnings [sampleCleanItem] (by decide)).2.mpr
  refine ⟨?_, ?_, ?_⟩ <;> decide

/-- Replacing every occurrence of a character removes it entirely whenever the
replacement text does not contain it. -/
theorem replaceChar_not_mem (target : Char) (rep : List Char) (hrep : target ∉ rep) :
    ∀ l : List Char, target ∉ replaceChar target rep l := by
  intro l
  induction l with
  | nil => simp [replaceChar]
  | cons c rest ih =>
    simp only [replaceChar, List.mem_append]
    rintro (h1 | h2)
    · by_cases hc : c = target
      · rw [if_pos hc] at h1
        exact hrep h1
      · rw [if_neg hc] at h1
        exact hc (List.mem_singleton.mp h1).symm
    · exact ih h2

/-- The copyright-removal scan is the identity on any text that contains no
mojibake marker: the regex can only start matching at a marker. -/
theorem stripCopyrightAux_no_marker :
    ∀ (fuel : Nat) (l : List Char), (∀ c ∈ l, c ≠ fffd) → stripCopyrightAux fuel l = l := by
  intro fuel
  induction fuel with
  | zero =>
    intro l _
    cases l <;> rfl
  | succ n ih =>
    intro l h
    cases l with
    | nil => rfl
    | cons c rest =>
      have hc : c ≠ fffd := h c (by simp)
      simp only [stripCopyrightAux, if_neg hc]
      rw [ih rest (fun x hx => h x (by simp [hx]))]

/-- C3, failing part: the copyright-boilerplate removal inside `cleanText` is
dead code. It runs after the step that replaces every mojibake marker with a
straight quote, so its pattern — which must begin with a marker — can never
match: on any input the stripping step is the identity, and on the concrete
input "Fans � IMAGO sports" (a marker followed by the agency name IMAGO) the
output still contains "IMAGO", the marker having merely become a quote. -/
theorem c3_copyright_removal_dead :
    (∀ l : List Char, stripCopyright (replaceChar fffd ['"'] l) = replaceChar fffd ['"'] l) ∧
    cleanText "Fans � IMAGO sports" = "Fans \" IMAGO sports" ∧
    strIncludes (cleanText "Fans � IMAGO sports") "IMAGO" = true := by
  refine ⟨?_, by decide, by decide⟩
  intro l
  apply stripCopyrightAux_no_marker
  intro c hc heq
  exact replaceChar_not_mem fffd ['"'] (by decide) l (heq ▸ hc)

/-- A character absent from a text and from the replacement stays absent after
replacement. -/
theorem replaceChar_not_mem_of (target : Char) (rep : List Char) (t : Char)
    (hrep : t ∉ rep) : ∀ l : List Char, t ∉ l → t ∉ replaceChar target rep l := by
  intro l
  induction l with
  | nil => simp [replaceChar]
  | cons c rest ih =>
    intro hl
    simp only [replaceChar, List.mem_append]
    rintro (h1 | h2)
    · by_cases hc : c = target
      · rw [if_pos hc] at h1
        exact hrep h1
      · rw [if_neg hc] at h1
        exact hl (List.mem_singleton.mp h1 ▸ List.mem_cons_self c rest)
    · exact ih (fun hm => hl (List.mem_cons_of_mem c hm)) h2

/-- Single-character replacement keeps some non-whitespace character whenever
the input has one and the replacement text has one. -/
theorem replaceChar_keeps_nonws (target : Char) (rep : List Char)
    (hrep : ∃ r ∈ rep, isJsWs r = false) :
    ∀ l : List Char, (∃ c ∈ l, isJsWs c = false) →
      ∃ c ∈ replaceChar target rep l, isJsWs c = false := by
  intro l
  induction l with
  | nil => simp
  | cons c rest ih =>
    rintro ⟨w, hw, hnw⟩
    simp only [replaceChar, List.mem_append]
    rcases hw with _ | ⟨_, hw⟩
    · by_cases hc : c = target
      · obtain ⟨r, hr, hnr⟩ := hrep
        exact ⟨r, Or.inl (by rw [if_pos hc]; exact hr), hnr⟩
      · exact ⟨c, Or.inl (by rw [if_neg hc]; exact List.mem_singleton.mpr rfl), hnw⟩
    · obtain ⟨w2, hw2, hnw2⟩ := ih ⟨w, hw, hnw⟩
      exact ⟨w2, Or.inr hw2, hnw2⟩

/-- Two-character replacement keeps some non-whitespace character whenever the
input has one and the replacement text has one. -/
theorem replace2_keeps_nonws (x y : Char) (rep : List Char)
    (hrep : ∃ r ∈ rep, isJsWs r = false) :
    ∀ l : List Char, (∃ c ∈ l, isJsWs c = false) →
      ∃ c ∈ replace2 x y rep l, isJsWs c = false := by
  intro l
  induction l using replace2.induct x y rep with
  | case1 => simp
  | case2 c => simp [replace2]
  | case3 c d rest hm ih =>
    intro hex
    rw [replace2, if_pos hm]
    obtain ⟨w, hw, hnw⟩ := hex
    rcases hw with _ | ⟨_, hw⟩
    · obtain ⟨r, hr, hnr⟩ := hrep
      exact ⟨r, List.mem_append_left _ hr, hnr⟩
    · rcases hw with _ | ⟨_, hw⟩
      · obtain ⟨r, hr, hnr⟩ := hrep
        exact ⟨r, List.mem_append_left _ hr, hnr⟩
      · obtain ⟨w2, hw2, hnw2⟩ := ih ⟨w, hw, hnw⟩
        exact ⟨w2, List.mem_append_right _ hw2, hnw2⟩
  | case4 c d rest hm ih =>
    intro hex
    rw [replace2, if_neg hm]
    obtain ⟨w, hw, hnw⟩ := hex
    rcases hw with _ | ⟨_, hw⟩
    · exact ⟨c, by simp, hnw⟩
    · obtain ⟨w2, hw2, hnw2⟩ := ih ⟨w, hw, hnw⟩
      exact ⟨w2, by simp [hw2], hnw2⟩

/-- Whitespace collapapsing keeps every non-whitespace character of the input. -/
theorem collapseWsAux_keeps_nonws :
    ∀ (l : List Char) (b : Bool) (c : Char), c ∈ l → isJsWs c = false →
      c ∈ collapseWsAux b l := by
  intro l
  induction l with
  | nil => simp
  | cons x rest ih =>
    intro b c hc hnw
    rcases hc with _ | ⟨_, hc⟩
    · rw [collapseWsAux, if_neg (by rw [hnw]; exact Bool.false_ne_true)]
      exact List.mem_cons_self _ _
    · by_cases hx : isJsWs x = true
      · rw [collapseWsAux, if_pos hx]
        cases b with
        | true => exact ih true c hc hnw
        | false => exact List.mem_cons_of_mem _ (ih true c hc hnw)
      · rw [collapseWsAux, if_neg hx]
        exact List.mem_cons_of_mem _ (ih false c hc hnw)

/-- Trimming a text that has a non-whitespace character leaves it non-empty. -/
theorem jsTrim_ne_nil (l : List Char) (h : ∃ c ∈ l, isJsWs c = false) :
    jsTrim l ≠ [] := by
  obtain ⟨w, hw, hnw⟩ := h
  intro hnil
  unfold jsTrim at hnil
  rw [List.reverse_eq_nil_iff, List.dropWhile_eq_nil_iff] at hnil
  have hw1 : w ∈ l.dropWhile isJsWs ∨ w ∈ l.takeWhile isJsWs := by
    rcases List.mem_append.mp ((List.takeWhile_append_dropWhile isJsWs l) ▸ hw) with h1 | h2
    · exact Or.inr h1
    · exact Or.inl h2
  rcases hw1 with h1 | h2
  · have := hnil w (List.mem_reverse.mpr h1)
    rw [hnw] at this
    exact Bool.false_ne_true this
  · have := List.mem_takeWhile_imp h2
    rw [hnw] at this
    exact Bool.false_ne_true this

/-- `cleanText` of a non-blank string is non-empty: every replacement step
preserves the existence of a non-whitespace character, the dead copyright
step is the identity, and collapsing and trimming keep at least one
non-whitespace character. -/
theorem cleanText_ne_empty (t : String) (h : jsTrimStr t ≠ "") : cleanText t ≠ "" := by
  have ht : t ≠ "" := by
    intro he
    subst he
    exact h rfl
  have hex0 : ∃ c ∈ t.data, isJsWs c = false := by
    by_contra hall
    push_neg at hall
    have hallws : ∀ c ∈ t.data, isJsWs c = true := by
      intro c hc
      cases hw : isJsWs c with
      | true => rfl
      | false => exact absurd hw (hall c hc)
    apply h
    show String.mk (jsTrim t.data) = ""
    have h1 : t.data.dropWhile isJsWs = [] := List.dropWhile_eq_nil_iff.mpr hallws
    unfold jsTrim
    rw [h1]
    rfl
  have hapos : isJsWs apos = false := by decide
  have hquote : isJsWs '"' = false := by decide
  have hex1 := replaceChar_keeps_nonws '?' [apos] ⟨apos, by simp, hapos⟩ t.data hex0
  have hex2 := replace2_keeps_nonws fffd '"' [apos] ⟨apos, by simp, hapos⟩ _ hex1
  have hex3 := replace2_keeps_nonws fffd 'S' ['"'] ⟨'"', by simp, hquote⟩ _ hex2
  have hex4 := replaceChar_keeps_nonws fffd ['"'] ⟨'"', by simp, hquote⟩ _ hex3
  have hex5 := replaceChar_keeps_nonws wdiamond ['.', '.', '.']
    ⟨'.', by simp, by decide⟩ _ hex4
  have hnomark : ∀ c ∈ replaceChar wdiamond ['.', '.', '.']
      (replaceChar fffd ['"'] (replace2 fffd 'S' ['"'] (replace2 fffd '"' [apos]
        (replaceChar '?' [apos] t.data)))), c ≠ fffd := by
    intro c hc heq
    subst heq
    exact replaceChar_not_mem_of wdiamond ['.', '.', '.'] fffd (by decide) _
      (replaceChar_not_mem fffd ['"'] (by decide) _) hc
  have hstrip : stripCopyright (replaceChar wdiamond ['.', '.', '.']
      (replaceChar fffd ['"'] (replace2 fffd 'S' ['"'] (replace2 fffd '"' [apos]
        (replaceChar '?' [apos] t.data))))) =
      replaceChar wdiamond ['.', '.', '.'] (replaceChar fffd ['"']
        (replace2 fffd 'S' ['"'] (replace2 fffd '"' [apos]
          (replaceChar '?' [apos] t.data)))) :=
    stripCopyrightAux_no_marker _ _ hnomark
  obtain ⟨w, hw, hnw⟩ := hex5
  have hex6 : ∃ c ∈ collapseWs (replaceChar wdiamond ['.', '.', '.']
      (replaceChar fffd ['"'] (replace2 fffd 'S' ['"'] (replace2 fffd '"' [apos]
        (replaceChar '?' [apos] t.data))))), isJsWs c = false :=
    ⟨w, collapseWsAux_keeps_nonws _ false w hw hnw, hnw⟩
  unfold cleanText
  rw [if_neg ht, hstrip]
  intro hempty
  exact jsTrim_ne_nil _ hex6 (congrArg String.data hempty)

/-- The fallback title is never empty: either some words survive and the
capitalized join is a non-empty string, or the literal fallback is returned. -/
theorem titleFromText_ne_empty (c : String) : titleFromText c ≠ "" := by
  have h : ∀ j : List Char,
      (match j with
        | [] => "Untitled Image"
        | c :: t => String.mk (Char.toUpper c :: t)) ≠ "" := by
    intro j
    cases j with
    | nil => decide
    | cons a as =>
      intro he
      have := congrArg String.data he
      simp at this
  exact h _

/-- `generateTitle` never returns the empty string. -/
theorem generateTitle_ne_empty (existingTitle : Option String) (cleanedText : String) :
    generateTitle existingTitle cleanedText ≠ "" := by
  cases existingTitle with
  | none => exact titleFromText_ne_empty cleanedText
  | some t =>
    show (if t ≠ "" ∧ jsTrimStr t ≠ "" then cleanText t else titleFromText cleanedText) ≠ ""
    split_ifs with hcond
    · exact cleanText_ne_empty t hcond.2
    · exact titleFromText_ne_empty cleanedText

/-- Every transformed result item carries a non-empty title, so the
non-empty-title hypothesis of the warnings theorem holds for every transformed
result set. -/
theorem transformMediaItem_title_ne_empty (baseImageUrl : String) (hit : MediaHit)
    (includeHighlights : Bool) :
    (transformMediaItem baseImageUrl hit includeHighlights).title ≠ "" :=
  generateTitle_ne_empty hit.source.title (cleanText hit.source.suchtext)
